import Mathlib

/-!
Verification development for the Vulkan EDRAM store of the Xenia emulator
(`src/xenia/gpu/vulkan/edram_store.h`).  The EDRAM mirror is a 1280x2048
image of 32-bit elements organized as 2048 tiles of 80x16 elements; the
store moves rectangles of data between that image and host render targets
with compute dispatches.  Declarations below are shallow embeddings of the
corresponding C++ entities; the source header is the authority for
everything it defines, while member-function bodies that live in the
implementation file are modelled from the specification and say so in
their doc comments.
-/

namespace EDRAMStore

/-- Modelled from the spec: the guest color render-target formats of
`xenos.h` (the header is not under src/).  The named constructors mirror
the guest format enumeration referenced by `IsColorFormat64bpp` and
`GetColorMode`. -/
inductive ColorRenderTargetFormat where
  | k_8_8_8_8
  | k_8_8_8_8_GAMMA
  | k_2_10_10_10
  | k_2_10_10_10_FLOAT
  | k_16_16
  | k_16_16_16_16
  | k_16_16_FLOAT
  | k_16_16_16_16_FLOAT
  | k_2_10_10_10_AS_16_16_16_16
  | k_2_10_10_10_FLOAT_AS_16_16_16_16
  | k_32_FLOAT
  | k_32_32_FLOAT
deriving DecidableEq, Fintype, Repr

/-- Modelled from the spec: the multisample-count enumeration of `xenos.h`
(the header is not under src/): one, two or four samples per pixel. -/
inductive MsaaSamples where
  | k1X
  | k2X
  | k4X
deriving DecidableEq, Fintype, Repr

/-- Whether the format is 64 bits per pixel on the guest
(edram_store.h lines 50-54, translated literally from the source). -/
def IsColorFormat64bpp (format : ColorRenderTargetFormat) : Bool :=
  format = ColorRenderTargetFormat.k_16_16_16_16 ||
  format = ColorRenderTargetFormat.k_16_16_16_16_FLOAT ||
  format = ColorRenderTargetFormat.k_32_32_FLOAT

/-- The processing-mode enumeration (edram_store.h lines 87-98).  The
packed 10.10.10.2 float mode `k_7e3` is commented out in the source, so it
is not a value of the enumeration; `k_ModeCount` is. -/
inductive Mode where
  | k_ModeUnsupported
  | k_32bpp
  | k_64bpp
  | k_ModeCount
deriving DecidableEq, Fintype, Repr

/-- The integer value of each `Mode` enumerator in the C++ source:
`k_ModeUnsupported = -1`, then `k_32bpp = 0`, `k_64bpp = 1`,
`k_ModeCount = 2`.  Values `0 ≤ v < k_ModeCount` index the `mode_info_`
and `mode_data_` tables. -/
def modeValue : Mode → Int
  | Mode.k_ModeUnsupported => -1
  | Mode.k_32bpp => 0
  | Mode.k_64bpp => 1
  | Mode.k_ModeCount => 2

/-- Modelled from the spec: which color formats the mode resolver
recognizes (the body of `GetColorMode` in edram_store.cc is not under
src/).  The packed 10.10.10.2 float formats belong to the reserved `k_7e3`
mode, which the spec says is reserved in the table but never resolves, so
they are the unrecognized formats. -/
def isColorFormatRecognized : ColorRenderTargetFormat → Bool
  | ColorRenderTargetFormat.k_2_10_10_10_FLOAT => false
  | ColorRenderTargetFormat.k_2_10_10_10_FLOAT_AS_16_16_16_16 => false
  | _ => true

/-- Modelled from the spec: the body of `GetColorMode` (edram_store.cc is
not under src/).  Pure function of (color format, sample count): the
64-bit-per-pixel formats resolve to `k_64bpp`, every other recognized
color format resolves to `k_32bpp` regardless of sample count, and
unrecognized combinations resolve to `k_ModeUnsupported`. -/
def GetColorMode (format : ColorRenderTargetFormat) (_samples : MsaaSamples) :
    Mode :=
  if IsColorFormat64bpp format then Mode.k_64bpp
  else if isColorFormatRecognized format then Mode.k_32bpp
  else Mode.k_ModeUnsupported

/-- Host top-left coordinate of a tile in the 1280x2048 EDRAM image:
`((tile & 15) * 80, (tile >> 4) * 16)` (edram_store.h lines 39-40). -/
def tileHostCoord (tile : Nat) : Nat × Nat :=
  ((tile &&& 15) * 80, (tile >>> 4) * 16)

/-- Membership of a host texel `(x, y)` in the 80x16 region of `tile`. -/
def inTileRegion (tile x y : Nat) : Prop :=
  (tileHostCoord tile).1 ≤ x ∧ x < (tileHostCoord tile).1 + 80 ∧
  (tileHostCoord tile).2 ≤ y ∧ y < (tileHostCoord tile).2 + 16

instance (tile x y : Nat) : Decidable (inTileRegion tile x y) := by
  unfold inTileRegion; infer_instance

/-- A `VkRect2D` as used by the dimension computation.  The offset is kept
as natural numbers: guest framebuffer coordinates are non-negative. -/
structure VkRect2D where
  x : Nat
  y : Nat
  w : Nat
  h : Nat
deriving DecidableEq, Repr

/-- A `VkExtent2D`. -/
structure VkExtent2D where
  width : Nat
  height : Nat
deriving DecidableEq, Repr

/-- Modelled from the spec: width half of `GetPixelEDRAMSizePower`
(edram_store.cc is not under src/) — log2 of how many EDRAM image texels
one framebuffer pixel covers horizontally.  A 64bpp format doubles the
width footprint and 4x multisampling doubles it again. -/
def pixelWidthPower (format_64bpp : Bool) (samples : MsaaSamples) : Nat :=
  (if format_64bpp then 1 else 0) +
  (if samples = MsaaSamples.k4X then 1 else 0)

/-- Modelled from the spec: height half of `GetPixelEDRAMSizePower`
(edram_store.cc is not under src/) — log2 of how many EDRAM image texels
one framebuffer pixel covers vertically.  2x and 4x multisampling double
the height footprint. -/
def pixelHeightPower (samples : MsaaSamples) : Nat :=
  if samples = MsaaSamples.k1X then 0 else 1

/-- Returns log2 of how many EDRAM image texels one framebuffer pixel
covers (edram_store.h lines 132-134); body modelled from the spec as the
pair of the width and height powers. -/
def GetPixelEDRAMSizePower (format_64bpp : Bool) (samples : MsaaSamples) :
    Nat × Nat :=
  (pixelWidthPower format_64bpp samples, pixelHeightPower samples)

/-- Modelled from the spec: the guest row pitch in tiles — the EDRAM-texel
footprint of one pixel row (`pitch_px` widened by the width power) divided
by the 80-texel tile width, rounded up. -/
def edramPitchTiles (format_64bpp : Bool) (samples : MsaaSamples)
    (pitch_px : Nat) : Nat :=
  ((pitch_px <<< pixelWidthPower format_64bpp samples) + 79) / 80

/-- Modelled from the spec: the body of `GetMaxHeight` (edram_store.cc is
not under src/).  Maximum height of a render target in pixels, derived
from the remaining tile capacity given the offset and the pitch: the
number of whole tile rows that fit in the remaining `2048 - offset_tiles`
tiles, times the 16-texel tile height, narrowed by the height power. -/
def GetMaxHeight (format_64bpp : Bool) (samples : MsaaSamples)
    (offset_tiles pitch_px : Nat) : Nat :=
  if pitch_px = 0 ∨ 2048 ≤ offset_tiles then 0
  else
    (((2048 - offset_tiles) / edramPitchTiles format_64bpp samples pitch_px) *
      16) >>> pixelHeightPower samples

/-- The outputs of a successful `GetDimensions` call: the adjusted
render-target rectangle (in pixels), the added tile offset, the tile
extent and the tile pitch. -/
structure DimensionsResult where
  rt_rect_adjusted : VkRect2D
  edram_add_offset_tiles : Nat
  edram_extent_tiles : VkExtent2D
  edram_pitch_tiles : Nat
deriving DecidableEq, Repr

/-- Modelled from the spec: the body of `GetDimensions` (edram_store.cc is
not under src/).  Clips the requested rectangle height against
`GetMaxHeight`, returns `none` when the resulting extent has zero area or
the rectangle does not begin on a whole-tile boundary (the framebuffer is
assumed to start at a whole tile), and otherwise produces the tile-space
outputs: added tile offset, tile extent (rounded up to whole tiles) and
tile pitch.  `none` embeds the `false` return of the source. -/
def GetDimensions (format_64bpp : Bool) (samples : MsaaSamples)
    (edram_base_offset_tiles edram_pitch_px : Nat) (rt_rect : VkRect2D) :
    Option DimensionsResult :=
  if rt_rect.w = 0 ∨
      min rt_rect.h
        (GetMaxHeight format_64bpp samples edram_base_offset_tiles
          edram_pitch_px - rt_rect.y) = 0 then none
  else if (rt_rect.x <<< pixelWidthPower format_64bpp samples) % 80 ≠ 0 ∨
      (rt_rect.y <<< pixelHeightPower samples) % 16 ≠ 0 then none
  else
    some
      { rt_rect_adjusted :=
          ⟨rt_rect.x, rt_rect.y, rt_rect.w,
           min rt_rect.h
             (GetMaxHeight format_64bpp samples edram_base_offset_tiles
               edram_pitch_px - rt_rect.y)⟩,
        edram_add_offset_tiles :=
          ((rt_rect.y <<< pixelHeightPower samples) / 16) *
            edramPitchTiles format_64bpp samples edram_pitch_px +
          (rt_rect.x <<< pixelWidthPower format_64bpp samples) / 80,
        edram_extent_tiles :=
          ⟨((rt_rect.w <<< pixelWidthPower format_64bpp samples) + 79) / 80,
           ((min rt_rect.h
               (GetMaxHeight format_64bpp samples edram_base_offset_tiles
                 edram_pitch_px - rt_rect.y) <<<
              pixelHeightPower samples) + 15) / 16⟩,
        edram_pitch_tiles :=
          edramPitchTiles format_64bpp samples edram_pitch_px }

/-- The current access regime for the EDRAM image
(edram_store.h lines 81-85). -/
inductive EDRAMImageStatus where
  | kUntransitioned
  | kStore
  | kLoad
deriving DecidableEq, Repr

/-- The push-constant block of a color transfer
(edram_store.h lines 121-125). -/
structure PushConstantsColor where
  edram_offset_tiles : Nat
  edram_pitch_tiles : Nat
  rt_offset_x : Nat
  rt_offset_y : Nat
deriving DecidableEq, Repr

/-- A command recorded into the caller-supplied command buffer:
the image barrier of `TransitionEDRAMImage`, or one element of the
bind/push/dispatch sequence of `CopyColor`. -/
inductive Command where
  | imageBarrier (load : Bool)
  | bindPipeline (mode : Mode) (load : Bool)
  | bindDescriptorSet (set : Nat)
  | pushConstants (pc : PushConstantsColor)
  | dispatch (width_tiles height_tiles : Nat)
deriving DecidableEq, Repr

/-- Modelled from the spec: the recyclable pool of transient binding
sets (`DescriptorPool` of fenced_pools.h is not under src/).  An
outstanding entry pairs a descriptor-set id with the completion fence it
was tagged with at allocation. -/
structure BindingPool where
  next_set : Nat
  free_sets : List Nat
  outstanding : List (Nat × Nat)
deriving DecidableEq, Repr

/-- The mutable state of an `EDRAMStore` relevant to command recording:
the image access status (`edram_image_status_`), which entries of
`mode_data_` have been lazily created, and the transient binding pool. -/
structure EDRAMStoreState where
  edram_image_status : EDRAMImageStatus
  mode_data_32bpp_built : Bool
  mode_data_64bpp_built : Bool
  pool : BindingPool
deriving DecidableEq, Repr

/-- The access status required for a transfer direction (`load = true`
reads the EDRAM image, `load = false` writes it). -/
def statusForLoad (load : Bool) : EDRAMImageStatus :=
  if load then EDRAMImageStatus.kLoad else EDRAMImageStatus.kStore

/-- Modelled from the spec: the body of `TransitionEDRAMImage`
(edram_store.cc is not under src/).  If the image is already in the
regime of the requested direction this is a no-op; otherwise it records
exactly one image barrier and updates the status. -/
def TransitionEDRAMImage (st : EDRAMStoreState) (load : Bool) :
    EDRAMStoreState × List Command :=
  if st.edram_image_status = statusForLoad load then (st, [])
  else ({ st with edram_image_status := statusForLoad load },
        [Command.imageBarrier load])

/-- Modelled from the spec: lazy creation of the resources of one mode
(edram_store.cc is not under src/): marks the `mode_data_` entry of the
mode as built.  Never reached with `k_ModeUnsupported` in `CopyColor`. -/
def EnsureModeResources (st : EDRAMStoreState) (mode : Mode) :
    EDRAMStoreState :=
  match mode with
  | Mode.k_32bpp => { st with mode_data_32bpp_built := true }
  | Mode.k_64bpp => { st with mode_data_64bpp_built := true }
  | _ => st

/-- Modelled from the spec: allocation of one transient binding set from
the pool, tagged with the completion fence of the submission that will
use it; recycles a free set when one exists. -/
def AllocateTransientSet (st : EDRAMStoreState) (fence : Nat) :
    EDRAMStoreState × Nat :=
  match st.pool.free_sets with
  | [] =>
      ({ st with pool :=
          { st.pool with
            next_set := st.pool.next_set + 1,
            outstanding :=
              (st.pool.next_set, fence) :: st.pool.outstanding } },
       st.pool.next_set)
  | s :: rest =>
      ({ st with pool :=
          { st.pool with
            free_sets := rest,
            outstanding := (s, fence) :: st.pool.outstanding } },
       s)

/-- Modelled from the spec: the body of `CopyColor` (edram_store.cc is
not under src/), following the algorithm of the spec: resolve the mode
(unsupported: silent no-op), compute the dimensions (rejected: silent
no-op), ensure the mode resources exist, ensure the image regime matches
the direction, allocate a transient binding set tagged with the fence,
and record the pipeline bind, the descriptor bind, the push constants and
a compute dispatch sized to the tile extent.  Returns the new store state
and the commands appended to the command buffer of the caller; there is no
error result. -/
def CopyColor (st : EDRAMStoreState) (fence : Nat) (load : Bool)
    (rt_format : ColorRenderTargetFormat) (rt_samples : MsaaSamples)
    (rt_rect : VkRect2D) (edram_offset_tiles edram_pitch_px : Nat) :
    EDRAMStoreState × List Command :=
  if GetColorMode rt_format rt_samples = Mode.k_ModeUnsupported then (st, [])
  else
    match GetDimensions (IsColorFormat64bpp rt_format) rt_samples
        edram_offset_tiles edram_pitch_px rt_rect with
    | none => (st, [])
    | some d =>
        ((AllocateTransientSet
            (TransitionEDRAMImage
              (EnsureModeResources st (GetColorMode rt_format rt_samples))
              load).1 fence).1,
         (TransitionEDRAMImage
            (EnsureModeResources st (GetColorMode rt_format rt_samples))
            load).2 ++
          [Command.bindPipeline (GetColorMode rt_format rt_samples) load,
           Command.bindDescriptorSet
             (AllocateTransientSet
               (TransitionEDRAMImage
                 (EnsureModeResources st
                   (GetColorMode rt_format rt_samples)) load).1 fence).2,
           Command.pushConstants
             ⟨edram_offset_tiles + d.edram_add_offset_tiles,
              d.edram_pitch_tiles,
              d.rt_rect_adjusted.x, d.rt_rect_adjusted.y⟩,
           Command.dispatch d.edram_extent_tiles.width
             d.edram_extent_tiles.height])

/-- The arguments of one `CopyColor` invocation, bundled. -/
structure CopyColorArgs where
  fence : Nat
  load : Bool
  rt_format : ColorRenderTargetFormat
  rt_samples : MsaaSamples
  rt_rect : VkRect2D
  edram_offset_tiles : Nat
  edram_pitch_px : Nat
deriving DecidableEq, Repr

/-- `CopyColor` applied to bundled arguments. -/
def copyColorRun (st : EDRAMStoreState) (a : CopyColorArgs) :
    EDRAMStoreState × List Command :=
  CopyColor st a.fence a.load a.rt_format a.rt_samples a.rt_rect
    a.edram_offset_tiles a.edram_pitch_px

/-- Number of image barriers in a recorded command list. -/
def countBarriers (cmds : List Command) : Nat :=
  cmds.countP (fun c =>
    match c with
    | Command.imageBarrier _ => true
    | _ => false)

/-- Modelled from the spec: the body of `Scavenge` (edram_store.cc and
fenced_pools.h are not under src/): walks the outstanding transient
binding sets, independently queries the tagged completion fence of each
one (`fence_fired`), returns the completed sets to the free pool and
keeps the rest outstanding.  A total function: it never blocks, returns
nothing and has no error result. -/
def Scavenge (st : EDRAMStoreState) (fence_fired : Nat → Bool) :
    EDRAMStoreState :=
  { st with pool :=
      { st.pool with
        free_sets := st.pool.free_sets ++
          (st.pool.outstanding.filter (fun e => fence_fired e.2)).map
            (fun e => e.1),
        outstanding :=
          st.pool.outstanding.filter (fun e => !fence_fired e.2) } }

/-- Tile index holding the EDRAM texel `(x, y)` of a framebuffer placed
at tile `base` with a row pitch of `pitch_tiles` tiles, under the linear
EDRAM layout assumption of the source (edram_store.h lines 31-33). -/
def edramTexelTile (base pitch_tiles x y : Nat) : Nat :=
  base + (y / 16) * pitch_tiles + x / 80

/-- Host coordinate in the 1280x2048 EDRAM image holding the EDRAM texel
`(x, y)` of the framebuffer: the texel at `(x % 80, y % 16)` inside the
region of its tile. -/
def edramHostCoord (base pitch_tiles x y : Nat) : Nat × Nat :=
  ((tileHostCoord (edramTexelTile base pitch_tiles x y)).1 + x % 80,
   (tileHostCoord (edramTexelTile base pitch_tiles x y)).2 + y % 16)

/-- Inverse of `edramHostCoord`: reconstructs the framebuffer texel from
a host coordinate of the EDRAM image. -/
def edramHostCoordInv (base pitch_tiles hx hy : Nat) : Nat × Nat :=
  (((((hy / 16) * 16 + hx / 80) - base) % pitch_tiles) * 80 + hx % 80,
   ((((hy / 16) * 16 + hx / 80) - base) / pitch_tiles) * 16 + hy % 16)

/-- Modelled from the spec: the store-direction transfer of `CopyColor`
and its compute shader (edram_store.cc and the shader sources are not
under src/) at the memory level: every EDRAM texel of the rectangle
`[x0, x0 + w) x [y0, y0 + h)` of the render target `rt` is copied
verbatim into the EDRAM image `ed` at its host coordinate; every other
texel of the EDRAM image keeps its contents.  Memories are grids of
32-bit elements, addressed as functions. -/
def storeColorRegion (base pitch_tiles x0 y0 w h : Nat)
    (rt ed : Nat → Nat → Nat) : Nat → Nat → Nat :=
  fun hx hy =>
    if x0 ≤ (edramHostCoordInv base pitch_tiles hx hy).1 ∧
        (edramHostCoordInv base pitch_tiles hx hy).1 < x0 + w ∧
        y0 ≤ (edramHostCoordInv base pitch_tiles hx hy).2 ∧
        (edramHostCoordInv base pitch_tiles hx hy).2 < y0 + h ∧
        edramHostCoord base pitch_tiles
          (edramHostCoordInv base pitch_tiles hx hy).1
          (edramHostCoordInv base pitch_tiles hx hy).2 = (hx, hy) then
      rt (edramHostCoordInv base pitch_tiles hx hy).1
        (edramHostCoordInv base pitch_tiles hx hy).2
    else ed hx hy

/-- Modelled from the spec: the load-direction transfer of `CopyColor`
and its compute shader (edram_store.cc and the shader sources are not
under src/) at the memory level: every texel of the rectangle is read
back verbatim from the EDRAM image at its host coordinate; the render
target keeps its contents elsewhere. -/
def loadColorRegion (base pitch_tiles x0 y0 w h : Nat)
    (ed rt : Nat → Nat → Nat) : Nat → Nat → Nat :=
  fun x y =>
    if x0 ≤ x ∧ x < x0 + w ∧ y0 ≤ y ∧ y < y0 + h then
      ed (edramHostCoord base pitch_tiles x y).1
        (edramHostCoord base pitch_tiles x y).2
    else rt x y

theorem tileHostCoord_eq (tile : Nat) :
    tileHostCoord tile = ((tile % 16) * 80, (tile / 16) * 16) := by
  unfold tileHostCoord
  rw [Nat.and_pow_two_sub_one_eq_mod tile 4, Nat.shiftRight_eq_div_pow]

theorem inTileRegion_iff (tile x y : Nat) :
    inTileRegion tile x y ↔ x / 80 = tile % 16 ∧ y / 16 = tile / 16 := by
  unfold inTileRegion
  rw [tileHostCoord_eq]
  constructor
  · rintro ⟨h1, h2, h3, h4⟩
    simp only at h1 h2 h3 h4
    omega
  · rintro ⟨h1, h2⟩
    simp only
    omega

/-- C1: the tile-to-coordinate mapping sending tile index `t`
(`0 ≤ t < 2048`) to host top-left coordinate `((t & 15) * 80, (t >> 4) * 16)`
with an 80x16 extent per tile partitions the 1280x2048 host grid: regions
of distinct tile indices are disjoint, every host texel lies in exactly
one tile region, and tile 2047 ends exactly at the image bounds
`(1280, 2048)`. -/
theorem tile_mapping_partition :
    (∀ t1 t2, t1 < 2048 → t2 < 2048 → t1 ≠ t2 →
      ∀ x y, ¬(inTileRegion t1 x y ∧ inTileRegion t2 x y)) ∧
    (∀ x y, x < 1280 → y < 2048 → ∃! t, t < 2048 ∧ inTileRegion t x y) ∧
    tileHostCoord 2047 = (1200, 2032) ∧
    1200 + 80 = 1280 ∧ 2032 + 16 = 2048 := by
  refine ⟨?_, ?_, by rw [tileHostCoord_eq], rfl, rfl⟩
  · intro t1 t2 h1 h2 hne x y ⟨hm1, hm2⟩
    rw [inTileRegion_iff] at hm1 hm2
    omega
  · intro x y hx hy
    refine ⟨(y / 16) * 16 + x / 80, ⟨by omega, ?_⟩, ?_⟩
    · rw [inTileRegion_iff]
      omega
    · intro t ⟨ht, hmem⟩
      rw [inTileRegion_iff] at hmem
      omega

theorem tile_mapping_partition_witness :
    ¬(inTileRegion 0 5 7 ∧ inTileRegion 1 5 7) ∧
    (∃! t, t < 2048 ∧ inTileRegion t 1205 2040) :=
  ⟨tile_mapping_partition.1 0 1 (by decide) (by decide) (by decide) 5 7,
   tile_mapping_partition.2.1 1205 2040 (by decide) (by decide)⟩

/-- C2: mode resolution is a pure total function of (format, sample
count); it yields `k_64bpp` exactly on the set recognized by
`IsColorFormat64bpp`, which is exactly {16.16.16.16 integer, 16.16.16.16
float, 32.32 float}; every other recognized format yields `k_32bpp`
regardless of sample count; unrecognized combinations yield
`k_ModeUnsupported`. -/
theorem GetColorMode_cases :
    ∀ (format : ColorRenderTargetFormat) (samples : MsaaSamples),
      (GetColorMode format samples = Mode.k_64bpp ↔
        (format = ColorRenderTargetFormat.k_16_16_16_16 ∨
         format = ColorRenderTargetFormat.k_16_16_16_16_FLOAT ∨
         format = ColorRenderTargetFormat.k_32_32_FLOAT)) ∧
      (GetColorMode format samples = Mode.k_64bpp ↔
        IsColorFormat64bpp format = true) ∧
      (isColorFormatRecognized format = true →
        IsColorFormat64bpp format = false →
        GetColorMode format samples = Mode.k_32bpp) ∧
      (isColorFormatRecognized format = false →
        GetColorMode format samples = Mode.k_ModeUnsupported) := by
  decide

theorem GetColorMode_cases_witness :
    GetColorMode ColorRenderTargetFormat.k_8_8_8_8 MsaaSamples.k4X =
      Mode.k_32bpp ∧
    GetColorMode ColorRenderTargetFormat.k_2_10_10_10_FLOAT MsaaSamples.k1X =
      Mode.k_ModeUnsupported :=
  ⟨(GetColorMode_cases ColorRenderTargetFormat.k_8_8_8_8
      MsaaSamples.k4X).2.2.1 (by decide) (by decide),
   (GetColorMode_cases ColorRenderTargetFormat.k_2_10_10_10_FLOAT
      MsaaSamples.k1X).2.2.2 (by decide)⟩

/-- C10: `GetColorMode` never returns `k_ModeCount` (and the reserved
packed-float mode is not even a value of the enumeration, being commented
out in the source); whenever the result is not `k_ModeUnsupported` its
enumerator value is an in-bounds index into the `mode_info_` and
`mode_data_` tables of size `k_ModeCount = 2`. -/
theorem GetColorMode_index_safe :
    ∀ (format : ColorRenderTargetFormat) (samples : MsaaSamples),
      GetColorMode format samples ≠ Mode.k_ModeCount ∧
      (GetColorMode format samples ≠ Mode.k_ModeUnsupported →
        0 ≤ modeValue (GetColorMode format samples) ∧
        modeValue (GetColorMode format samples) < modeValue Mode.k_ModeCount) := by
  decide

theorem GetColorMode_index_safe_witness :
    0 ≤ modeValue (GetColorMode ColorRenderTargetFormat.k_32_32_FLOAT
      MsaaSamples.k2X) ∧
    modeValue (GetColorMode ColorRenderTargetFormat.k_32_32_FLOAT
      MsaaSamples.k2X) < modeValue Mode.k_ModeCount :=
  (GetColorMode_index_safe ColorRenderTargetFormat.k_32_32_FLOAT
    MsaaSamples.k2X).2 (by decide)

theorem GetDimensions_eq_some {f64 : Bool} {s : MsaaSamples}
    {base pitch : Nat} {rect : VkRect2D} {d : DimensionsResult} :
    GetDimensions f64 s base pitch rect = some d ↔
      rect.w ≠ 0 ∧
      min rect.h (GetMaxHeight f64 s base pitch - rect.y) ≠ 0 ∧
      (rect.x <<< pixelWidthPower f64 s) % 80 = 0 ∧
      (rect.y <<< pixelHeightPower s) % 16 = 0 ∧
      d = { rt_rect_adjusted := ⟨rect.x, rect.y, rect.w,
              min rect.h (GetMaxHeight f64 s base pitch - rect.y)⟩,
            edram_add_offset_tiles :=
              ((rect.y <<< pixelHeightPower s) / 16) *
                edramPitchTiles f64 s pitch +
              (rect.x <<< pixelWidthPower f64 s) / 80,
            edram_extent_tiles :=
              ⟨((rect.w <<< pixelWidthPower f64 s) + 79) / 80,
               (((min rect.h (GetMaxHeight f64 s base pitch - rect.y)) <<<
                  pixelHeightPower s) + 15) / 16⟩,
            edram_pitch_tiles := edramPitchTiles f64 s pitch } := by
  unfold GetDimensions
  constructor
  · intro h
    split at h
    · exact absurd h (by simp)
    · split at h
      · exact absurd h (by simp)
      · rename_i h1 h2
        push_neg at h1 h2
        refine ⟨h1.1, h1.2, h2.1, h2.2, ?_⟩
        exact (Option.some.injEq _ _).mp h.symm
  · rintro ⟨h1, h2, h3, h4, h5⟩
    rw [if_neg (by tauto), if_neg (by tauto), h5]

theorem edramPitchTiles_pos {f64 : Bool} {s : MsaaSamples} {pitch : Nat}
    (hpitch : pitch ≠ 0) : 1 ≤ edramPitchTiles f64 s pitch := by
  have hx : 0 < pitch <<< pixelWidthPower f64 s := by
    rw [Nat.shiftLeft_eq]
    exact Nat.mul_pos (Nat.pos_of_ne_zero hpitch) (pow_pos (by norm_num) _)
  unfold edramPitchTiles
  omega

theorem capacity_aux (base pt R ry h0 hpw : Nat)
    (hR : R * pt ≤ 2048 - base)
    (hbase : base ≤ 2048)
    (hmod : (ry <<< hpw) % 16 = 0)
    (hle : ry + h0 ≤ (R * 16) >>> hpw)
    (_hh0 : 1 ≤ h0)
    (hpow : hpw ≤ 1) :
    base + ((ry <<< hpw) / 16 + ((h0 <<< hpw) + 15) / 16) * pt ≤ 2048 := by
  have hqe : (ry <<< hpw) / 16 + ((h0 <<< hpw) + 15) / 16 ≤ R := by
    rw [Nat.shiftRight_eq_div_pow] at hle
    rw [Nat.shiftLeft_eq] at hmod ⊢
    rw [Nat.shiftLeft_eq]
    interval_cases hpw <;> norm_num at hle hmod ⊢ <;> omega
  have h2 : ((ry <<< hpw) / 16 + ((h0 <<< hpw) + 15) / 16) * pt ≤ R * pt :=
    Nat.mul_le_mul_right pt hqe
  omega

/-- C4: the dimension computation clips the requested height to
`GetMaxHeight`, so that the computed tile extent never extends past the
2048-tile capacity: on success the adjusted height is the requested
height clipped to the maximum, the rectangle ends within the maximum
height, and every tile row touched by the tile extent from the given base
offset lies within the 2048-tile capacity; a rectangle lying entirely at
or beyond the maximum height is rejected. -/
theorem GetDimensions_capacity :
    ∀ (f64 : Bool) (s : MsaaSamples) (base pitch : Nat) (rect : VkRect2D)
      (d : DimensionsResult),
      (GetDimensions f64 s base pitch rect = some d →
        d.rt_rect_adjusted.h =
          min rect.h (GetMaxHeight f64 s base pitch - rect.y) ∧
        rect.y + d.rt_rect_adjusted.h ≤ GetMaxHeight f64 s base pitch ∧
        base + (((rect.y <<< pixelHeightPower s) / 16) +
          d.edram_extent_tiles.height) * d.edram_pitch_tiles ≤ 2048) ∧
      (GetMaxHeight f64 s base pitch ≤ rect.y →
        GetDimensions f64 s base pitch rect = none) := by
  intro f64 s base pitch rect d
  constructor
  · intro h
    rw [GetDimensions_eq_some] at h
    obtain ⟨hw, hh, hax, hay, hd⟩ := h
    subst hd
    have hminle : min rect.h (GetMaxHeight f64 s base pitch - rect.y) ≤
        GetMaxHeight f64 s base pitch - rect.y := Nat.min_le_right _ _
    refine ⟨rfl, by simp only; omega, ?_⟩
    have hmax_pos : 0 < GetMaxHeight f64 s base pitch := by omega
    have hcond : ¬(pitch = 0 ∨ 2048 ≤ base) := by
      intro hc
      rw [GetMaxHeight, if_pos hc] at hmax_pos
      exact absurd hmax_pos (by norm_num)
    have hmaxH : GetMaxHeight f64 s base pitch =
        (((2048 - base) / edramPitchTiles f64 s pitch) * 16) >>>
          pixelHeightPower s := by
      rw [GetMaxHeight, if_neg hcond]
    simp only
    exact capacity_aux base (edramPitchTiles f64 s pitch)
      ((2048 - base) / edramPitchTiles f64 s pitch) rect.y
      (min rect.h (GetMaxHeight f64 s base pitch - rect.y))
      (pixelHeightPower s)
      (Nat.div_mul_le_self _ _)
      (by omega)
      hay
      (by rw [← hmaxH]; omega)
      (by omega)
      (by cases s <;> simp [pixelHeightPower])
  · intro hle
    unfold GetDimensions
    rw [if_pos (Or.inr (by omega))]

theorem GetDimensions_capacity_witness :
    0 + 16 ≤ GetMaxHeight false MsaaSamples.k1X 0 80 :=
  ((GetDimensions_capacity false MsaaSamples.k1X 0 80 ⟨0, 0, 80, 16⟩
    ⟨⟨0, 0, 80, 16⟩, 0, ⟨1, 1⟩, 1⟩).1 (by decide)).2.1

/-- C5: `GetDimensions` returns `none` (the `false` of the source, a
no-op indication rather than necessarily an error) whenever the resulting
clipped extent has zero area or the requested rectangle does not begin on
a whole-tile boundary; in particular it returns `none` for a 0x0
framebuffer. -/
theorem GetDimensions_rejects :
    ∀ (f64 : Bool) (s : MsaaSamples) (base pitch : Nat) (rect : VkRect2D),
      ((rect.w = 0 ∨
        min rect.h (GetMaxHeight f64 s base pitch - rect.y) = 0 ∨
        (rect.x <<< pixelWidthPower f64 s) % 80 ≠ 0 ∨
        (rect.y <<< pixelHeightPower s) % 16 ≠ 0) →
        GetDimensions f64 s base pitch rect = none) ∧
      (rect.w = 0 → rect.h = 0 →
        GetDimensions f64 s base pitch rect = none) := by
  intro f64 s base pitch rect
  constructor
  · intro h
    unfold GetDimensions
    by_cases h1 : rect.w = 0 ∨
      min rect.h (GetMaxHeight f64 s base pitch - rect.y) = 0
    · rw [if_pos h1]
    · rw [if_neg h1, if_pos (by tauto)]
  · intro hw _
    unfold GetDimensions
    rw [if_pos (Or.inl hw)]

theorem GetDimensions_rejects_witness :
    GetDimensions false MsaaSamples.k1X 0 80 ⟨0, 0, 0, 0⟩ = none :=
  (GetDimensions_rejects false MsaaSamples.k1X 0 80 ⟨0, 0, 0, 0⟩).2 rfl rfl

/-- C7: the dimension computation is a pure, deterministic function of
its inputs with no hidden state: two calls of `GetDimensions` with
identical inputs yield identical outputs (success flag, adjusted
rectangle, added tile offset, tile extent and tile pitch all agree). -/
theorem GetDimensions_deterministic :
    ∀ (f64 : Bool) (s : MsaaSamples) (base pitch : Nat) (rect : VkRect2D),
      GetDimensions f64 s base pitch rect =
        GetDimensions f64 s base pitch rect :=
  fun _ _ _ _ _ => rfl

/-- C3: when mode resolution yields `k_ModeUnsupported` or the dimension
computation rejects the request, `CopyColor` returns with no command
recorded into the caller-supplied command buffer and no state mutation;
there is no error channel, so the two failure causes are indistinguishable
to the caller and both manifest as a silent no-op. -/
theorem CopyColor_silent_noop :
    ∀ (st : EDRAMStoreState) (fence : Nat) (load : Bool)
      (rt_format : ColorRenderTargetFormat) (rt_samples : MsaaSamples)
      (rt_rect : VkRect2D) (offset pitch : Nat),
      (GetColorMode rt_format rt_samples = Mode.k_ModeUnsupported ∨
       GetDimensions (IsColorFormat64bpp rt_format) rt_samples offset pitch
         rt_rect = none) →
      CopyColor st fence load rt_format rt_samples rt_rect offset pitch =
        (st, []) := by
  intro st fence load fmt s rect off pitch h
  unfold CopyColor
  rcases h with h | h
  · rw [if_pos h]
  · by_cases h1 : GetColorMode fmt s = Mode.k_ModeUnsupported
    · rw [if_pos h1]
    · rw [if_neg h1, h]

theorem CopyColor_silent_noop_witness :
    CopyColor ⟨EDRAMImageStatus.kUntransitioned, false, false, ⟨0, [], []⟩⟩
      0 false ColorRenderTargetFormat.k_2_10_10_10_FLOAT MsaaSamples.k1X
      ⟨0, 0, 80, 16⟩ 0 80 =
      (⟨EDRAMImageStatus.kUntransitioned, false, false, ⟨0, [], []⟩⟩, []) :=
  CopyColor_silent_noop _ 0 false _ _ _ 0 80 (Or.inl (by decide))

theorem EnsureModeResources_status (st : EDRAMStoreState) (mode : Mode) :
    (EnsureModeResources st mode).edram_image_status =
      st.edram_image_status := by
  cases mode <;> rfl

theorem AllocateTransientSet_status (st : EDRAMStoreState) (fence : Nat) :
    (AllocateTransientSet st fence).1.edram_image_status =
      st.edram_image_status := by
  unfold AllocateTransientSet
  cases hfs : st.pool.free_sets <;> rfl

theorem statusForLoad_ne_untransitioned (load : Bool) :
    statusForLoad load ≠ EDRAMImageStatus.kUntransitioned := by
  cases load <;> simp [statusForLoad]

theorem statusForLoad_inj {b1 b2 : Bool} :
    statusForLoad b1 = statusForLoad b2 ↔ b1 = b2 := by
  cases b1 <;> cases b2 <;> simp [statusForLoad]

theorem countBarriers_append (c1 c2 : List Command) :
    countBarriers (c1 ++ c2) = countBarriers c1 + countBarriers c2 :=
  List.countP_append _ _ _

theorem copyColorRun_nonempty {st : EDRAMStoreState} {a : CopyColorArgs}
    (h : (copyColorRun st a).2 ≠ []) :
    (copyColorRun st a).1.edram_image_status = statusForLoad a.load ∧
    countBarriers (copyColorRun st a).2 =
      (if st.edram_image_status = statusForLoad a.load then 0 else 1) ∧
    (st.edram_image_status ≠ statusForLoad a.load →
      (copyColorRun st a).2.head? = some (Command.imageBarrier a.load)) := by
  unfold copyColorRun CopyColor at h ⊢
  by_cases hm :
      GetColorMode a.rt_format a.rt_samples = Mode.k_ModeUnsupported
  · rw [if_pos hm] at h
    exact absurd rfl h
  · rw [if_neg hm] at h ⊢
    cases hd : GetDimensions (IsColorFormat64bpp a.rt_format) a.rt_samples
        a.edram_offset_tiles a.edram_pitch_px a.rt_rect with
    | none =>
        rw [hd] at h
        exact absurd rfl h
    | some d =>
        dsimp only at h ⊢
        unfold TransitionEDRAMImage
        rw [EnsureModeResources_status]
        by_cases hst : st.edram_image_status = statusForLoad a.load
        · rw [if_pos hst]
          simp only [List.nil_append]
          refine ⟨?_, ?_, ?_⟩
          · rw [AllocateTransientSet_status, EnsureModeResources_status, hst]
          · rw [if_pos hst]
            rfl
          · intro hne
            exact absurd hst hne
        · rw [if_neg hst]
          refine ⟨?_, ?_, ?_⟩
          · rw [AllocateTransientSet_status]
          · rw [if_neg hst]
            rfl
          · intro _
            rfl

/-- C6: the backing-image access status behaves as the stated state
machine over {kUntransitioned, kStore, kLoad}: a `CopyColor` that records
a dispatch while the status is `kUntransitioned` records the transition
barrier first (as the head of its recorded commands); two consecutive
recording calls of the same direction, starting from a status that does
not match that direction, issue exactly one image barrier between and
including them (the regime-ensuring step of the second call is a no-op);
and a recording call whose direction differs from the previous recording
call issues exactly one barrier. -/
theorem edram_image_status_machine :
    (∀ (st : EDRAMStoreState) (a : CopyColorArgs),
      st.edram_image_status = EDRAMImageStatus.kUntransitioned →
      ∀ w h, Command.dispatch w h ∈ (copyColorRun st a).2 →
        (copyColorRun st a).2.head? = some (Command.imageBarrier a.load)) ∧
    (∀ (st : EDRAMStoreState) (a1 a2 : CopyColorArgs),
      a1.load = a2.load →
      st.edram_image_status ≠ statusForLoad a1.load →
      (copyColorRun st a1).2 ≠ [] →
      (copyColorRun (copyColorRun st a1).1 a2).2 ≠ [] →
      countBarriers ((copyColorRun st a1).2 ++
        (copyColorRun (copyColorRun st a1).1 a2).2) = 1) ∧
    (∀ (st : EDRAMStoreState) (a1 a2 : CopyColorArgs),
      a1.load ≠ a2.load →
      (copyColorRun st a1).2 ≠ [] →
      (copyColorRun (copyColorRun st a1).1 a2).2 ≠ [] →
      countBarriers (copyColorRun (copyColorRun st a1).1 a2).2 = 1) := by
  refine ⟨?_, ?_, ?_⟩
  · intro st a hst w h hmem
    have hne : (copyColorRun st a).2 ≠ [] := by
      intro hnil
      rw [hnil] at hmem
      exact absurd hmem (List.not_mem_nil _)
    obtain ⟨_, _, h3⟩ := copyColorRun_nonempty hne
    apply h3
    rw [hst]
    intro heq
    exact statusForLoad_ne_untransitioned a.load heq.symm
  · intro st a1 a2 hload hst h1 h2
    obtain ⟨h1stat, h1cnt, _⟩ := copyColorRun_nonempty h1
    obtain ⟨_, h2cnt, _⟩ := copyColorRun_nonempty h2
    rw [countBarriers_append, h1cnt, if_neg hst, h2cnt,
      if_pos (by rw [h1stat, hload])]
  · intro st a1 a2 hload h1 h2
    obtain ⟨h1stat, _, _⟩ := copyColorRun_nonempty h1
    obtain ⟨_, h2cnt, _⟩ := copyColorRun_nonempty h2
    rw [h2cnt, if_neg]
    rw [h1stat]
    intro heq
    exact hload (statusForLoad_inj.mp heq)

theorem edram_image_status_machine_witness :
    countBarriers
      ((copyColorRun
          ⟨EDRAMImageStatus.kUntransitioned, false, false, ⟨0, [], []⟩⟩
          ⟨0, false, ColorRenderTargetFormat.k_8_8_8_8, MsaaSamples.k1X,
           ⟨0, 0, 80, 16⟩, 0, 80⟩).2 ++
        (copyColorRun
          (copyColorRun
            ⟨EDRAMImageStatus.kUntransitioned, false, false, ⟨0, [], []⟩⟩
            ⟨0, false, ColorRenderTargetFormat.k_8_8_8_8, MsaaSamples.k1X,
             ⟨0, 0, 80, 16⟩, 0, 80⟩).1
          ⟨1, false, ColorRenderTargetFormat.k_8_8_8_8, MsaaSamples.k1X,
           ⟨0, 0, 80, 16⟩, 0, 80⟩).2) = 1 :=
  edram_image_status_machine.2.1
    ⟨EDRAMImageStatus.kUntransitioned, false, false, ⟨0, [], []⟩⟩
    ⟨0, false, ColorRenderTargetFormat.k_8_8_8_8, MsaaSamples.k1X,
     ⟨0, 0, 80, 16⟩, 0, 80⟩
    ⟨1, false, ColorRenderTargetFormat.k_8_8_8_8, MsaaSamples.k1X,
     ⟨0, 0, 80, 16⟩, 0, 80⟩
    rfl (by decide) (by decide) (by decide)

/-- C9: `Scavenge` called while there are no outstanding transient
binding-set allocations, or while no outstanding allocation completion
fence has fired, performs zero reclamations and leaves the binding pool
and every other component of the store state unchanged; being a total
function into the state with no error result, it raises no error and
performs no waiting. -/
theorem Scavenge_noop :
    ∀ (st : EDRAMStoreState) (fence_fired : Nat → Bool),
      (st.pool.outstanding = [] → Scavenge st fence_fired = st) ∧
      ((∀ e ∈ st.pool.outstanding, fence_fired e.2 = false) →
        Scavenge st fence_fired = st) := by
  intro st f
  constructor
  · intro h
    obtain ⟨s1, s2, s3, p1, p2, p3⟩ := st
    simp only at h
    subst h
    unfold Scavenge
    simp
  · intro h
    unfold Scavenge
    have h1 : st.pool.outstanding.filter (fun e => f e.2) = [] := by
      rw [List.filter_eq_nil_iff]
      intro e he
      simp [h e he]
    have h2 : st.pool.outstanding.filter (fun e => !f e.2) =
        st.pool.outstanding := by
      rw [List.filter_eq_self]
      intro e he
      simp [h e he]
    rw [h1, h2]
    simp

theorem Scavenge_noop_witness :
    Scavenge
      ⟨EDRAMImageStatus.kStore, true, false, ⟨3, [2], [(0, 5), (1, 6)]⟩⟩
      (fun _ => false) =
      ⟨EDRAMImageStatus.kStore, true, false, ⟨3, [2], [(0, 5), (1, 6)]⟩⟩ :=
  (Scavenge_noop
    ⟨EDRAMImageStatus.kStore, true, false, ⟨3, [2], [(0, 5), (1, 6)]⟩⟩
    (fun _ => false)).2 (by decide)

theorem edramHostCoordInv_hostCoord (base pitch_tiles x y : Nat)
    (hx80 : x / 80 < pitch_tiles) :
    edramHostCoordInv base pitch_tiles
      (edramHostCoord base pitch_tiles x y).1
      (edramHostCoord base pitch_tiles x y).2 = (x, y) := by
  have hpt : 0 < pitch_tiles := Nat.lt_of_le_of_lt (Nat.zero_le _) hx80
  unfold edramHostCoordInv edramHostCoord edramTexelTile
  rw [tileHostCoord_eq]
  simp only
  have h1 : ∀ t : Nat, (t % 16 * 80 + x % 80) / 80 = t % 16 := by
    intro t
    omega
  have h2 : ∀ t : Nat, (t % 16 * 80 + x % 80) % 80 = x % 80 := by
    intro t
    omega
  have h3 : ∀ t : Nat, (t / 16 * 16 + y % 16) / 16 = t / 16 := by
    intro t
    omega
  have h4 : ∀ t : Nat, (t / 16 * 16 + y % 16) % 16 = y % 16 := by
    intro t
    omega
  rw [h1, h2, h3, h4]
  have h5 : (base + y / 16 * pitch_tiles + x / 80) / 16 * 16 +
      (base + y / 16 * pitch_tiles + x / 80) % 16 - base =
      y / 16 * pitch_tiles + x / 80 := by
    omega
  rw [h5]
  have h6 : (y / 16 * pitch_tiles + x / 80) % pitch_tiles = x / 80 := by
    rw [Nat.mul_comm (y / 16) pitch_tiles, Nat.mul_add_mod]
    exact Nat.mod_eq_of_lt hx80
  have h7 : (y / 16 * pitch_tiles + x / 80) / pitch_tiles = y / 16 := by
    rw [Nat.mul_comm (y / 16) pitch_tiles, Nat.mul_add_div hpt,
      Nat.div_eq_of_lt hx80]
    omega
  rw [h6, h7, Prod.mk.injEq]
  omega

/-- C8: for a fixed rectangle and tile offset, a `CopyColor` store
followed by a `CopyColor` load of the same region, with no intervening
writes to the guest render target, reproduces the original render-target
contents bit for bit: the transfers copy 32-bit elements verbatim, so at
the element level there is no precision loss (a 64bpp pixel is two such
elements).  The rectangle is assumed to lie within the row pitch. -/
theorem store_load_roundtrip :
    ∀ (base pitch_tiles x0 y0 w h : Nat) (rt ed : Nat → Nat → Nat),
      x0 + w ≤ 80 * pitch_tiles →
      ∀ x y,
        loadColorRegion base pitch_tiles x0 y0 w h
          (storeColorRegion base pitch_tiles x0 y0 w h rt ed) rt x y =
          rt x y := by
  intro base pt x0 y0 w h rt ed hpitch x y
  unfold loadColorRegion
  by_cases hmem : x0 ≤ x ∧ x < x0 + w ∧ y0 ≤ y ∧ y < y0 + h
  · rw [if_pos hmem]
    unfold storeColorRegion
    have hinv : edramHostCoordInv base pt
        (edramHostCoord base pt x y).1 (edramHostCoord base pt x y).2 =
        (x, y) :=
      edramHostCoordInv_hostCoord base pt x y (by omega)
    rw [hinv]
    rw [if_pos]
    refine ⟨hmem.1, hmem.2.1, hmem.2.2.1, hmem.2.2.2, rfl⟩
  · rw [if_neg hmem]

theorem store_load_roundtrip_witness :
    loadColorRegion 0 1 0 0 80 16
      (storeColorRegion 0 1 0 0 80 16
        (fun x y => 1000 * x + y) (fun _ _ => 0))
      (fun x y => 1000 * x + y) 5 7 = 1000 * 5 + 7 :=
  store_load_roundtrip 0 1 0 0 80 16
    (fun x y => 1000 * x + y) (fun _ _ => 0) (by decide) 5 7

end EDRAMStore
